import Mathlib

/-!
Verification development for the ToneSoul conscience layer: a shallow
embedding of the responsibility ledger (`src/genesis.py`), the confirmation
gate (`src/genesis.py`), the council aggregation (`src/council.py`) and the
benevolence filter (`src/benevolence.py`), together with theorems about the
behaviour of those operations.

Modelling conventions:
* Python `float` scores and confidences are modelled as `ℚ`; every score in
  the source is a ratio of small integers compared against decimal literals,
  so rational arithmetic is exact for them.
* The nondeterministic id `str(uuid.uuid4())[:8]` is an explicit parameter of
  `GenesisOps.create`; reachability of ledger states assumes only what the
  source guarantees, namely that a generated id is not already a key of the
  in-memory store.
* The durable jsonl file behind `_append_to_ledger` is modelled as the `log`
  field of `Ledger`.
* `BenevolenceFilter._calculate_tension` computes `1 - (c*p) ** 0.5`, a real
  square root on floats; the tension score is reported only and never gates
  any verdict, and no theorem below concerns it, so it is left out of the
  embedded audit record.
* The council's external model call in `_get_persona_vote` is the collaborator
  `advisor : Persona → AdvisorReply`; `deliberate` builds one vote per persona
  from it exactly as the source builds a `CouncilVote` from the parsed reply.
  The in-memory `history` list is write-only state that no claim concerns.
-/

/-- `ResponsibilityTier` from `src/genesis.py`: tiers of responsibility. -/
inductive ResponsibilityTier where
  | SYSTEM
  | DEVELOPER
  | USER
  | AI
deriving DecidableEq

/-- The numeric `.value` of each tier (`SYSTEM = 0 … AI = 3`). -/
def ResponsibilityTier.value : ResponsibilityTier → Nat
  | .SYSTEM => 0
  | .DEVELOPER => 1
  | .USER => 2
  | .AI => 3

/-- The `Genesis` dataclass from `src/genesis.py`. -/
structure Genesis where
  id : String
  timestamp : String
  initiator : String
  tier : ResponsibilityTier
  original_request : String
  parent_id : Option String
  children_ids : List String
  is_mine : Bool
  confirmed : Bool
  confirmation_reason : Option String
deriving DecidableEq

/-- Lookup in the `records` dict (`Dict[str, Genesis]`), modelled as an
association list whose first matching key wins. -/
def lookupS : List (String × Genesis) → String → Option Genesis
  | [], _ => none
  | (k, g) :: s, i => if i = k then some g else lookupS s i

/-- Pointwise update of the record stored under key `i`; on a store whose
keys are distinct this is exactly the in-place mutation
`self.records[i] = f(self.records[i])` of a Python dict entry, and on an
absent key it is the identity. -/
def updateS (s : List (String × Genesis)) (i : String) (f : Genesis → Genesis) :
    List (String × Genesis) :=
  s.map (fun kg => if kg.1 = i then (kg.1, f kg.2) else kg)

/-- The `GenesisLedger` state: the in-memory `records` dict plus the durable
append-only jsonl log written by `_append_to_ledger`. -/
structure Ledger where
  store : List (String × Genesis)
  log : List Genesis

/-- The state of a freshly constructed `GenesisLedger()`. -/
def emptyLedger : Ledger := { store := [], log := [] }

/-- A fresh `Genesis(...)` as constructed inside `GenesisLedger.create`:
`children_ids` empty, unconfirmed, no confirmation reason. -/
def newGenesis (nid ts ini req : String) (tier : ResponsibilityTier)
    (pid : Option String) (mine : Bool) : Genesis :=
  { id := nid
    timestamp := ts
    initiator := ini
    tier := tier
    original_request := req
    parent_id := pid
    children_ids := []
    is_mine := mine
    confirmed := false
    confirmation_reason := none }

/-- The parent-linking step of `GenesisLedger.create`:
`if parent_id and parent_id in self.records:` (note Python truthiness — the
empty string is falsy) `self.records[parent_id].children_ids.append(id)`. -/
def linkStore (s : List (String × Genesis)) (pid : Option String) (nid : String) :
    List (String × Genesis) :=
  match pid with
  | none => s
  | some p =>
      if p ≠ "" ∧ (lookupS s p).isSome then
        updateS s p (fun gp => { gp with children_ids := gp.children_ids ++ [nid] })
      else s

/-- `GenesisLedger.create`: build the record, link it to a resolving parent,
store it under its id and append it to the durable log.  The generated id
`nid` and timestamp `ts` are explicit parameters of the embedding. -/
def create (L : Ledger) (nid ts ini req : String) (tier : ResponsibilityTier)
    (pid : Option String) (mine : Bool) : Genesis × Ledger :=
  let g := newGenesis nid ts ini req tier pid mine
  let store1 := linkStore L.store pid nid
  (g, { store := (nid, g) :: store1, log := L.log ++ [g] })

/-- `GenesisLedger.confirm`: on an unknown id return `False` and change
nothing; otherwise set `confirmed = True`, store the reason, append the
updated record to the log and return `True`. -/
def confirm (L : Ledger) (i reason : String) : Bool × Ledger :=
  match lookupS L.store i with
  | none => (false, L)
  | some g =>
      let g1 := { g with confirmed := true, confirmation_reason := some reason }
      (true,
        { store := updateS L.store i
            (fun gr => { gr with confirmed := true, confirmation_reason := some reason })
          log := L.log ++ [g1] })

/-- Ledger states reachable through the public mutating API of
`GenesisLedger` (`__init__`, then any sequence of `create` / `confirm`
calls).  The only constraint carried by a `create` step is the source's
implicit guarantee that the freshly generated uuid is not already a key of
the store. -/
inductive Reachable : Ledger → Prop where
  | nil : Reachable emptyLedger
  | created {L : Ledger} (nid ts ini req : String) (tier : ResponsibilityTier)
      (pid : Option String) (mine : Bool) :
      Reachable L → lookupS L.store nid = none →
      Reachable (create L nid ts ini req tier pid mine).2
  | confStep {L : Ledger} (i reason : String) :
      Reachable L → Reachable (confirm L i reason).2

/-- The loop body of `GenesisLedger.get_chain`, with explicit fuel bounding
the number of iterations of `while current_id and current_id in records`.
The accumulator is kept newest-ancestor-first, which is exactly the
`list(reversed(chain))` the source returns; `none` means the loop has not
exited within `fuel` iterations. -/
def chainLoop (s : List (String × Genesis)) (fuel : Nat) (cur : Option String)
    (acc : List Genesis) : Option (List Genesis) :=
  match cur with
  | none => some acc
  | some i =>
      match lookupS s i with
      | none => some acc
      | some g =>
          match fuel with
          | 0 => none
          | Nat.succ f => chainLoop s f g.parent_id (g :: acc)

/-- `GenesisLedger.get_chain(id)` run for at most `fuel` loop iterations. -/
def get_chain (s : List (String × Genesis)) (i : String) (fuel : Nat) :
    Option (List Genesis) :=
  chainLoop s fuel (some i) []

/-- Adjacency of a root-first chain: the later record points back at the
earlier one (`child.parent_id == parent.id`). -/
def chainRel (par ch : Genesis) : Prop := ch.parent_id = some par.id

/-- Every stored entry's record carries the key it is stored under — true of
every dict state the source ever builds, since records are stored via
`self.records[genesis.id] = genesis`. -/
def StoreWF (s : List (String × Genesis)) : Prop := ∀ kg ∈ s, kg.2.id = kg.1

/-- Every id listed in some record's `children_ids` is itself a key of the
store (the child was stored in the same `create` call that appended it). -/
def childrenLive (s : List (String × Genesis)) : Prop :=
  ∀ i g, lookupS s i = some g → ∀ c ∈ g.children_ids, (lookupS s c).isSome = true

/-- `ConfirmationGate.HIGH_RISK_ACTIONS` from `src/genesis.py`. -/
def HIGH_RISK_ACTIONS : List String :=
  ["delete", "remove", "destroy", "override", "ignore", "break", "betray", "abandon"]

/-- Case-folded character list of a text: `text.lower()` (the texts the
source lowers are ASCII, where `Char.toLower` agrees with Python). -/
def lowerChars (s : String) : List Char := s.toList.map Char.toLower

/-- `text.lower()` as a string. -/
def lowerStr (s : String) : String := String.mk (lowerChars s)

/-- Does `pat` occur at the head of `hay`? -/
def startsWithL : List Char → List Char → Bool
  | [], _ => true
  | _ :: _, [] => false
  | c :: p, d :: h => c = d && startsWithL p h

/-- Does `pat` occur contiguously anywhere in `hay`? -/
def occursIn (pat hay : List Char) : Bool :=
  match hay with
  | [] => startsWithL pat []
  | _ :: h => startsWithL pat hay || occursIn pat h

/-- Substring test, the embedding of Python's `pat in hay`. -/
def containsSub (hay pat : String) : Bool := occursIn pat.toList hay.toList

/-- `ConfirmationGate.requires_confirmation`: high-risk keyword in the
lowered action text, or an AI-owned record at tier `USER` or above. -/
def requiresConfirmation (action : String) (g : Genesis) : Bool :=
  if HIGH_RISK_ACTIONS.any (fun kw => containsSub (lowerStr action) kw) then true
  else if g.is_mine && decide (ResponsibilityTier.USER.value ≤ g.tier.value) then true
  else false

/-- `AuditResult` from `src/benevolence.py`. -/
inductive AuditResult where
  | PASS
  | FLAG
  | REJECT
  | INTERCEPT
deriving DecidableEq

/-- `AuditLayer` from `src/benevolence.py` (`L1` operational, `L2` semantic,
`L3` metaphor). -/
inductive AuditLayer where
  | L1
  | L2
  | L3
deriving DecidableEq

/-- The `BenevolenceAudit` dataclass.  The reported-only float
`tension_score` (`1 - sqrt(context*phrase)`) is not embedded; see the header
comment. -/
structure BenevolenceAudit where
  attribute_check : AuditResult
  shadow_check : AuditResult
  benevolence_check : AuditResult
  final_result : AuditResult
  error_log : Option String
  context_score : ℚ
  phrase_score : ℚ

/-- `BenevolenceFilter.PLEASING_PATTERNS`, already lowered as the source
lowers each pattern before searching; none of the patterns contains a regex
metacharacter, so `re.search` is a plain substring test. -/
def PLEASING_PATTERNS : List String :=
  ["absolutely", "definitely", "of course", "certainly", "no problem",
   "sure thing", "i'd be happy to", "great question"]

/-- `BenevolenceFilter.HONEST_PATTERNS`, lowered. -/
def HONEST_PATTERNS : List String :=
  ["i'm not sure", "i don't know", "might be", "could be", "uncertain",
   "approximately", "based on limited"]

/-- Splitting a character list at whitespace, Python `str.split()` style:
runs of non-whitespace characters become fragments and whitespace only
separates (empty fragments are filtered away by the caller). -/
def splitWs (cs : List Char) : List (List Char) :=
  cs.foldr
    (fun c acc =>
      if c.isWhitespace then [] :: acc
      else
        match acc with
        | [] => [[c]]
        | w :: ws => (c :: w) :: ws)
    []

/-- Word list of a text the way `_check_shadow` builds its sets:
`text.lower().split()` — case-folded, split on whitespace, empties dropped. -/
def wordsOf (s : String) : List String :=
  ((splitWs (lowerChars s)).filter (fun w => w ≠ [])).map (fun w => String.mk w)

/-- `set(proposed_action.lower().split())`, as a duplicate-free list. -/
def actionWordSet (a : String) : List String := (wordsOf a).dedup

/-- The union of the context fragments' word sets (duplicates are harmless:
the source only tests membership in this set). -/
def contextWords (ctx : List String) : List String :=
  ctx.foldr (fun frag acc => wordsOf frag ++ acc) []

/-- `overlap = len(action_words & context_words) / len(action_words)`. -/
def overlapQ (a : String) (ctx : List String) : ℚ :=
  (((actionWordSet a).filter (fun w => decide (w ∈ contextWords ctx))).length : ℚ) /
    ((actionWordSet a).length : ℚ)

/-- `BenevolenceFilter._check_shadow`. -/
def checkShadow (a : String) (ctx : List String) : AuditResult × ℚ :=
  if ctx = [] then (.PASS, 1/2)
  else if actionWordSet a = [] then (.PASS, 0)
  else if overlapQ a ctx < 3/10 then (.REJECT, overlapQ a ctx)
  else (.PASS, overlapQ a ctx)

/-- Number of pleasing patterns found in the lowered text. -/
def pleasingCount (a : String) : Nat :=
  (PLEASING_PATTERNS.filter (fun p => containsSub (lowerStr a) p)).length

/-- Number of honest patterns found in the lowered text. -/
def honestCount (a : String) : Nat :=
  (HONEST_PATTERNS.filter (fun p => containsSub (lowerStr a) p)).length

/-- `BenevolenceFilter._check_benevolence`. -/
def checkBenevolence (a : String) : AuditResult × ℚ :=
  let pc := pleasingCount a
  let hc := honestCount a
  let score : ℚ := if pc + hc = 0 then 1/2 else (hc : ℚ) / ((pc + hc : Nat) : ℚ)
  if 2 ≤ pc ∧ hc = 0 then (.INTERCEPT, score) else (.PASS, score)

/-- `BenevolenceFilter._check_attribute`. -/
def checkAttribute (basis : String) (layer : AuditLayer) : AuditResult :=
  if basis = "Inference" ∧ layer ≠ .L2 then .FLAG else .PASS

/-- The loop of `BenevolenceFilter._finalize` over the priority list: each
entry is tested for `REJECT`, then `INTERCEPT`, then `FLAG` before moving to
the next entry. -/
def finalizeLoop : List (AuditResult × String) → AuditResult × Option String
  | [] => (.PASS, none)
  | (r, msg) :: rest =>
      if r = .REJECT then (.REJECT, some msg)
      else if r = .INTERCEPT then (.INTERCEPT, some msg)
      else if r = .FLAG then (.FLAG, some msg)
      else finalizeLoop rest

/-- `BenevolenceFilter._finalize`: the priority list is
`[(shadow, "無影子的輸出"), (benevolence, "攔截無效敘事"), (attribute, "跨層混用")]`. -/
def finalize (audit0 : BenevolenceAudit) : AuditResult × Option String :=
  finalizeLoop
    [(audit0.shadow_check, "無影子的輸出"),
     (audit0.benevolence_check, "攔截無效敘事"),
     (audit0.attribute_check, "跨層混用")]

/-- `BenevolenceFilter.audit`: run the three checks, record their verdicts
and scores, then finalize. -/
def audit (proposed : String) (ctx : List String) (basis : String)
    (layer : AuditLayer) : BenevolenceAudit :=
  let attr := checkAttribute basis layer
  let sh := checkShadow proposed ctx
  let be := checkBenevolence proposed
  let pre : BenevolenceAudit :=
    { attribute_check := attr
      shadow_check := sh.1
      benevolence_check := be.1
      final_result := .PASS
      error_log := none
      context_score := sh.2
      phrase_score := be.2 }
  let fin := finalize pre
  { pre with final_result := fin.1, error_log := fin.2 }

/-- Priority rank of an audit outcome (`REJECT > INTERCEPT > FLAG > PASS`). -/
def resultRank : AuditResult → Nat
  | .PASS => 0
  | .FLAG => 1
  | .INTERCEPT => 2
  | .REJECT => 3

/-- The shadow-check contract in the exact words of the specification: for a
non-empty context list and a non-empty action *text*, the check rejects
precisely when the word-set overlap ratio is below `0.3` and reports that
ratio as the context score.  Stated over the embedded `checkShadow` so the
sentence can be compared with what the code does. -/
def shadowSpecClaim (a : String) (ctx : List String) : Prop :=
  if ctx = [] then checkShadow a ctx = (.PASS, 1/2)
  else if a = "" then checkShadow a ctx = (.PASS, 0)
  else
    ((checkShadow a ctx).1 = .REJECT ↔ overlapQ a ctx < 3/10) ∧
      (checkShadow a ctx).2 = overlapQ a ctx

/-- `Persona` from `src/council.py`. -/
inductive Persona where
  | PHILOSOPHER
  | ENGINEER
  | GUARDIAN
deriving DecidableEq

/-- The `.value` string of each persona. -/
def personaValue : Persona → String
  | .PHILOSOPHER => "philosopher"
  | .ENGINEER => "engineer"
  | .GUARDIAN => "guardian"

/-- The structured reply of the external Persona Advisor, as parsed by
`_get_persona_vote` from the model's JSON. -/
structure AdvisorReply where
  stance : String
  concerns : List String
  approval : Bool
  confidence : ℚ

/-- `CouncilVote` from `src/council.py`. -/
structure CouncilVote where
  persona : Persona
  stance : String
  concerns : List String
  approval : Bool
  confidence : ℚ

/-- `CouncilVerdict` from `src/council.py`. -/
structure CouncilVerdict where
  approved : Bool
  consensus_level : ℚ
  votes : List CouncilVote
  final_decision : String
  uncertainty_level : ℚ
  requires_confirmation : Bool

/-- `_get_persona_vote`: the vote built from the advisor's parsed reply,
with the `persona` field set by the council itself. -/
def mkVote (advisor : Persona → AdvisorReply) (p : Persona) : CouncilVote :=
  { persona := p
    stance := (advisor p).stance
    concerns := (advisor p).concerns
    approval := (advisor p).approval
    confidence := (advisor p).confidence }

/-- The `high_risk_keywords` list of `Council._check_confirmation_required`. -/
def councilKeywords : List String :=
  ["delete", "remove", "destroy", "override", "betray", "break", "abandon", "ignore"]

/-- `any(kw in action.lower() for kw in keywords)`. -/
def kwHit (kws : List String) (action : String) : Bool :=
  kws.any (fun kw => containsSub (lowerStr action) kw)

/-- `Council._check_confirmation_required`.  The guardian vote is fetched
with `next(...)`, which raises if no guardian vote exists; that failure case
is `none` here (it is unreachable from `deliberate`). -/
def checkConfirmationRequired (action : String) (votes : List CouncilVote) :
    Option Bool :=
  if kwHit councilKeywords action then some true
  else
    match votes.find? (fun v => decide (v.persona = Persona.GUARDIAN)) with
    | some gv => some (!gv.approval || !gv.concerns.isEmpty)
    | none => none

/-- `Council._synthesize_decision`. -/
def synthesizeDecision (votes : List CouncilVote) : String :=
  String.intercalate " | " (votes.map (fun v => personaValue v.persona ++ ": " ++ v.stance))

/-- `Council._calculate_uncertainty`: one minus the mean confidence. -/
def calcUncertainty (votes : List CouncilVote) : ℚ :=
  1 - (votes.map (fun v => v.confidence)).sum / (votes.length : ℚ)

/-- `Council.deliberate` for the fixed three-persona panel, with the
external model call abstracted as `advisor` (the context object is part of
the advisor's closure; the aggregation never reads it).  The verdict is also
appended to the in-memory history, state that no theorem below concerns. -/
def deliberate (advisor : Persona → AdvisorReply) (action : String) : CouncilVerdict :=
  let votes := [mkVote advisor .PHILOSOPHER, mkVote advisor .ENGINEER, mkVote advisor .GUARDIAN]
  let approvals := (votes.filter (fun v => v.approval)).length
  { approved := approvals == votes.length
    consensus_level := (approvals : ℚ) / (votes.length : ℚ)
    votes := votes
    final_decision := synthesizeDecision votes
    uncertainty_level := calcUncertainty votes
    requires_confirmation := (checkConfirmationRequired action votes).getD false }

/-- Demo ledger holding one root record `"p"`. -/
def demoRootLedger : Ledger :=
  (create emptyLedger "p" "t0" "alice" "root request" .USER none false).2

/-- The record stored under `"p"` in `demoRootLedger`. -/
def demoRootRec : Genesis := newGenesis "p" "t0" "alice" "root request" .USER none false

/-- A reachable ledger created by one call with a dangling `parent_id`. -/
def danglingLedger : Ledger :=
  (create emptyLedger "a" "t0" "bob" "orphan request" .USER (some "p") false).2

/-- Demo ledger with a root `"r"` and a child `"c"` linked to it. -/
def demoChainLedger : Ledger :=
  (create (create emptyLedger "r" "t0" "u" "q0" .USER none false).2
    "c" "t1" "ai" "q1" .AI (some "r") true).2

/-- The root record of `demoChainLedger` after its child list was updated. -/
def demoChainRoot : Genesis :=
  { id := "r", timestamp := "t0", initiator := "u", tier := .USER,
    original_request := "q0", parent_id := none, children_ids := ["c"],
    is_mine := false, confirmed := false, confirmation_reason := none }

/-- The child record of `demoChainLedger`. -/
def demoChainChild : Genesis := newGenesis "c" "t1" "ai" "q1" .AI (some "r") true

/-- A reachable ledger whose parent links form a two-cycle: the first call
passes the dangling parent id `"x"`, and the second call's freshly generated
id happens to be `"x"` (nothing in the source prevents the uuid slice from
colliding with a caller-supplied parent string). -/
def cyclicLedger : Ledger :=
  (create (create emptyLedger "a" "t0" "u" "q0" .USER (some "x") false).2
    "x" "t1" "u" "q1" .USER (some "a") false).2

/-- The record stored under `"a"` in `cyclicLedger`. -/
def cyclicRecA : Genesis :=
  { id := "a", timestamp := "t0", initiator := "u", tier := .USER,
    original_request := "q0", parent_id := some "x", children_ids := ["x"],
    is_mine := false, confirmed := false, confirmation_reason := none }

/-- The record stored under `"x"` in `cyclicLedger`. -/
def cyclicRecX : Genesis := newGenesis "x" "t1" "u" "q1" .USER (some "a") false

theorem lookupS_cons (k : String) (v : Genesis) (s : List (String × Genesis)) (i : String) :
    lookupS ((k, v) :: s) i = if i = k then some v else lookupS s i := rfl

theorem lookupS_update (s : List (String × Genesis)) (i : String) (f : Genesis → Genesis)
    (j : String) :
    lookupS (updateS s i f) j = if j = i then (lookupS s j).map f else lookupS s j := by
  induction s with
  | nil => simp [updateS, lookupS]
  | cons kg s ih =>
      obtain ⟨k, g⟩ := kg
      by_cases hk : k = i
      · subst hk
        have hu : updateS ((k, g) :: s) k f = (k, f g) :: updateS s k f := by
          simp [updateS]
        rw [hu]
        by_cases hj : j = k
        · subst hj
          simp [lookupS_cons]
        · simp [lookupS_cons, hj, ih]
      · have hu : updateS ((k, g) :: s) i f = (k, g) :: updateS s i f := by
          simp [updateS, hk]
        rw [hu]
        by_cases hj : j = k
        · subst hj
          simp [lookupS_cons, hk]
        · simp [lookupS_cons, hj, ih]

theorem isSome_lookupS_update (s : List (String × Genesis)) (i : String)
    (f : Genesis → Genesis) (j : String) :
    (lookupS (updateS s i f) j).isSome = (lookupS s j).isSome := by
  rw [lookupS_update]
  split
  · cases lookupS s j <;> simp
  · rfl

theorem linkStore_lookup_cases (s : List (String × Genesis)) (pid : Option String)
    (nid : String) (j : String) :
    lookupS (linkStore s pid nid) j = lookupS s j ∨
      ∃ g0, lookupS s j = some g0 ∧
        lookupS (linkStore s pid nid) j =
          some { g0 with children_ids := g0.children_ids ++ [nid] } := by
  cases pid with
  | none => exact Or.inl rfl
  | some p =>
      by_cases hcond : p ≠ "" ∧ (lookupS s p).isSome
      · by_cases hj : j = p
        · subst hj
          rcases Option.isSome_iff_exists.mp hcond.2 with ⟨g0, hg0⟩
          refine Or.inr ⟨g0, hg0, ?_⟩
          simp [linkStore, hcond, lookupS_update, hg0]
        · left
          simp [linkStore, hcond, lookupS_update, hj]
      · left
        simp [linkStore, hcond]

theorem isSome_linkStore (s : List (String × Genesis)) (pid : Option String)
    (nid : String) (j : String) :
    (lookupS (linkStore s pid nid) j).isSome = (lookupS s j).isSome := by
  rcases linkStore_lookup_cases s pid nid j with h | ⟨g0, hg0, h⟩
  · rw [h]
  · rw [h, hg0]; rfl

theorem storeWF_lookup_id {s : List (String × Genesis)} (hwf : StoreWF s)
    {i : String} {g : Genesis} (h : lookupS s i = some g) : g.id = i := by
  induction s with
  | nil => simp [lookupS] at h
  | cons kg s ih =>
      obtain ⟨k, v⟩ := kg
      rw [lookupS_cons] at h
      by_cases hik : i = k
      · rw [if_pos hik] at h
        cases h
        rw [hik]
        exact hwf (k, g) (List.mem_cons_self _ _)
      · rw [if_neg hik] at h
        exact ih (fun kg hm => hwf kg (List.mem_cons_of_mem _ hm)) h

theorem reachable_childrenLive {L : Ledger} (h : Reachable L) : childrenLive L.store := by
  induction h with
  | nil =>
      intro i g hg c hc
      simp [emptyLedger, lookupS] at hg
  | @created L0 nid ts ini req tier pid mine hR hfresh ih =>
      intro i g hg c hc
      have hstore : (create L0 nid ts ini req tier pid mine).2.store =
          (nid, newGenesis nid ts ini req tier pid mine) :: linkStore L0.store pid nid := rfl
      rw [hstore, lookupS_cons] at hg
      rw [hstore, lookupS_cons]
      by_cases hi : i = nid
      · rw [if_pos hi] at hg
        cases hg
        simp [newGenesis] at hc
      · rw [if_neg hi] at hg
        rcases linkStore_lookup_cases L0.store pid nid i with hcase | ⟨g0, hg0, hcase⟩
        · rw [hcase] at hg
          have hlive := ih i g hg c hc
          by_cases hc' : c = nid
          · rw [if_pos hc']; rfl
          · rw [if_neg hc', isSome_linkStore]
            exact hlive
        · rw [hcase] at hg
          cases hg
          simp only [List.mem_append, List.mem_singleton] at hc
          rcases hc with hc | hc
          · have hlive := ih i g0 hg0 c hc
            by_cases hc' : c = nid
            · rw [if_pos hc']; rfl
            · rw [if_neg hc', isSome_linkStore]
              exact hlive
          · rw [if_pos hc]; rfl
  | @confStep L0 i reason hR ih =>
      intro j g hg c hc
      cases hlk : lookupS L0.store i with
      | none =>
          have hstore : (confirm L0 i reason).2.store = L0.store := by
            simp [confirm, hlk]
          rw [hstore] at hg
          rw [hstore]
          exact ih j g hg c hc
      | some g0 =>
          have hstore : (confirm L0 i reason).2.store =
              updateS L0.store i (fun gr =>
                { gr with confirmed := true, confirmation_reason := some reason }) := by
            simp [confirm, hlk]
          rw [hstore, lookupS_update] at hg
          rw [hstore, isSome_lookupS_update]
          by_cases hji : j = i
          · rw [if_pos hji] at hg
            cases hup : lookupS L0.store j with
            | none => rw [hup] at hg; cases hg
            | some g1 =>
                rw [hup] at hg
                cases hg
                exact ih j g1 hup c hc
          · rw [if_neg hji] at hg
            exact ih j g hg c hc

/-- C1 (amended): bidirectional linkage is established exactly when the
parent id resolves at creation time.  On any reachable ledger, `create` with
a fresh id and a non-empty `parent_id` that is a key of the store results in
the new record being stored with that `parent_id` and in the parent's child
list containing the new id exactly once.  (The unamended claim fails because
`create` also accepts a `parent_id` that is not in the store and then records
the dangling pointer without any linkage; see the counterexample.) -/
theorem create_resolving_parent_bilink (L : Ledger) (hR : Reachable L)
    (nid ts ini req : String) (tier : ResponsibilityTier) (mine : Bool)
    (p : String) (gp : Genesis)
    (hfresh : lookupS L.store nid = none) (hp : p ≠ "")
    (hgp : lookupS L.store p = some gp) :
    lookupS (create L nid ts ini req tier (some p) mine).2.store nid =
        some (newGenesis nid ts ini req tier (some p) mine) ∧
    (newGenesis nid ts ini req tier (some p) mine).parent_id = some p ∧
    lookupS (create L nid ts ini req tier (some p) mine).2.store p =
        some { gp with children_ids := gp.children_ids ++ [nid] } ∧
    (gp.children_ids ++ [nid]).count nid = 1 := by
  have hpn : ¬ p = nid := by
    intro h
    rw [h, hfresh] at hgp
    cases hgp
  have hstore : (create L nid ts ini req tier (some p) mine).2.store =
      (nid, newGenesis nid ts ini req tier (some p) mine) ::
        linkStore L.store (some p) nid := rfl
  have hlink : linkStore L.store (some p) nid =
      updateS L.store p (fun gp => { gp with children_ids := gp.children_ids ++ [nid] }) := by
    have hsome : (lookupS L.store p).isSome := by rw [hgp]; rfl
    simp [linkStore, hp, hsome]
  refine ⟨?_, rfl, ?_, ?_⟩
  · rw [hstore, lookupS_cons, if_pos rfl]
  · rw [hstore, lookupS_cons, if_neg hpn, hlink, lookupS_update, if_pos rfl, hgp]
    rfl
  · have hnotin : nid ∉ gp.children_ids := by
      intro hmem
      have hlive := reachable_childrenLive hR p gp hgp nid hmem
      rw [hfresh] at hlive
      cases hlive
    rw [List.count_append, List.count_eq_zero.mpr hnotin]
    simp

/-- C1 (counterexample): a single `create` call with a `parent_id` that is
absent from the store produces a reachable ledger state containing a record
whose `parent_id` is set but whose parent does not exist in the store, so the
claimed invariant does not hold of every reachable state. -/
theorem create_dangling_parent_cex :
    Reachable danglingLedger ∧
    lookupS danglingLedger.store "a" =
        some (newGenesis "a" "t0" "bob" "orphan request" .USER (some "p") false) ∧
    (newGenesis "a" "t0" "bob" "orphan request" .USER (some "p") false).parent_id =
        some "p" ∧
    lookupS danglingLedger.store "p" = none := by
  refine ⟨?_, by decide, rfl, by decide⟩
  exact Reachable.created "a" "t0" "bob" "orphan request" .USER (some "p") false
    Reachable.nil rfl

/-- C1 (witness): the amended theorem applied to a concrete ledger holding
one root record `"p"` and a fresh child id `"c"`. -/
theorem create_resolving_parent_bilink_witness :
    lookupS (create demoRootLedger "c" "t1" "ai" "child request" .AI (some "p") true).2.store
        "c" = some (newGenesis "c" "t1" "ai" "child request" .AI (some "p") true) ∧
    (newGenesis "c" "t1" "ai" "child request" .AI (some "p") true).parent_id = some "p" ∧
    lookupS (create demoRootLedger "c" "t1" "ai" "child request" .AI (some "p") true).2.store
        "p" = some { demoRootRec with children_ids := demoRootRec.children_ids ++ ["c"] } ∧
    (demoRootRec.children_ids ++ ["c"]).count "c" = 1 :=
  create_resolving_parent_bilink demoRootLedger
    (Reachable.created "p" "t0" "alice" "root request" .USER none false Reachable.nil rfl)
    "c" "t1" "ai" "child request" .AI true "p" demoRootRec (by decide) (by decide) (by decide)

/-- C9: on an id present in the store, `confirm` returns `True` and a second
`confirm` with a different reason returns `True` again and leaves the record
confirmed with the latest reason (last-write-wins on the two mutable
fields); on an unknown id `confirm` returns `False` and leaves the ledger
completely unchanged. -/
theorem confirm_found (L : Ledger) (i r : String) (g : Genesis)
    (hg : lookupS L.store i = some g) :
    confirm L i r =
      (true,
        { store := updateS L.store i
            (fun gr => { gr with confirmed := true, confirmation_reason := some r })
          log := L.log ++ [{ g with confirmed := true, confirmation_reason := some r }] }) := by
  simp [confirm, hg]

theorem confirm_semantics :
    (∀ (L : Ledger) (i : String) (g : Genesis) (r1 r2 : String),
        lookupS L.store i = some g →
        (confirm L i r1).1 = true ∧
        (confirm (confirm L i r1).2 i r2).1 = true ∧
        lookupS ((confirm (confirm L i r1).2 i r2).2).store i =
          some { g with confirmed := true, confirmation_reason := some r2 }) ∧
    (∀ (L : Ledger) (i r : String),
        lookupS L.store i = none → confirm L i r = (false, L)) := by
  constructor
  · intro L i g r1 r2 hg
    have h1 := confirm_found L i r1 g hg
    have h1f : (confirm L i r1).1 = true := by rw [h1]
    have h1s : (confirm L i r1).2.store =
        updateS L.store i
          (fun gr => { gr with confirmed := true, confirmation_reason := some r1 }) := by
      rw [h1]
    have hg1 : lookupS (confirm L i r1).2.store i =
        some { g with confirmed := true, confirmation_reason := some r1 } := by
      rw [h1s, lookupS_update, if_pos rfl, hg]
      rfl
    have h2 := confirm_found (confirm L i r1).2 i r2 _ hg1
    have h2f : (confirm (confirm L i r1).2 i r2).1 = true := by rw [h2]
    have h2s : (confirm (confirm L i r1).2 i r2).2.store =
        updateS (confirm L i r1).2.store i
          (fun gr => { gr with confirmed := true, confirmation_reason := some r2 }) := by
      rw [h2]
    refine ⟨h1f, h2f, ?_⟩
    rw [h2s, lookupS_update, if_pos rfl, hg1]
    rfl
  · intro L i r hg
    simp [confirm, hg]

/-- C9 (witness): both halves of the `confirm` theorem applied to the
concrete one-record ledger. -/
theorem confirm_semantics_witness :
    (confirm demoRootLedger "p" "first").1 = true ∧
    (confirm (confirm demoRootLedger "p" "first").2 "p" "second").1 = true ∧
    lookupS ((confirm (confirm demoRootLedger "p" "first").2 "p" "second").2).store "p" =
      some { demoRootRec with confirmed := true, confirmation_reason := some "second" } ∧
    confirm demoRootLedger "zzz" "reason" = (false, demoRootLedger) := by
  have h1 := confirm_semantics.1 demoRootLedger "p" demoRootRec "first" "second" (by decide)
  have h2 := confirm_semantics.2 demoRootLedger "zzz" "reason" (by decide)
  exact ⟨h1.1, h1.2.1, h1.2.2, h2⟩

theorem chainLoop_step (s : List (String × Genesis)) (f : Nat) (i : String)
    (g : Genesis) (acc : List Genesis) (h : lookupS s i = some g) :
    chainLoop s (Nat.succ f) (some i) acc = chainLoop s f g.parent_id (g :: acc) := by
  simp [chainLoop, h]

theorem chainLoop_sound (s : List (String × Genesis)) (hwf : StoreWF s) :
    ∀ (fuel : Nat) (cur : Option String) (h0 : Genesis) (t c : List Genesis),
      chainLoop s fuel cur (h0 :: t) = some c →
      cur = h0.parent_id →
      List.Chain' chainRel (h0 :: t) →
      (∃ pre, c = pre ++ h0 :: t) ∧ List.Chain' chainRel c ∧
        (∃ gh rest, c = gh :: rest ∧
          (gh.parent_id = none ∨ ∃ p, gh.parent_id = some p ∧ lookupS s p = none)) := by
  intro fuel
  induction fuel with
  | zero =>
      intro cur h0 t c hrun hcur hchain
      cases cur with
      | none =>
          have hc : h0 :: t = c := by simpa [chainLoop] using hrun
          subst hc
          exact ⟨⟨[], rfl⟩, hchain, ⟨h0, t, rfl, Or.inl hcur.symm⟩⟩
      | some i =>
          cases hlk : lookupS s i with
          | none =>
              have hc : h0 :: t = c := by simpa [chainLoop, hlk] using hrun
              subst hc
              exact ⟨⟨[], rfl⟩, hchain, ⟨h0, t, rfl, Or.inr ⟨i, hcur.symm, hlk⟩⟩⟩
          | some g => simp [chainLoop, hlk] at hrun
  | succ f ih =>
      intro cur h0 t c hrun hcur hchain
      cases cur with
      | none =>
          have hc : h0 :: t = c := by simpa [chainLoop] using hrun
          subst hc
          exact ⟨⟨[], rfl⟩, hchain, ⟨h0, t, rfl, Or.inl hcur.symm⟩⟩
      | some i =>
          cases hlk : lookupS s i with
          | none =>
              have hc : h0 :: t = c := by simpa [chainLoop, hlk] using hrun
              subst hc
              exact ⟨⟨[], rfl⟩, hchain, ⟨h0, t, rfl, Or.inr ⟨i, hcur.symm, hlk⟩⟩⟩
          | some g =>
              have hrun' : chainLoop s f g.parent_id (g :: h0 :: t) = some c := by
                simpa [chainLoop, hlk] using hrun
              have hgid : g.id = i := storeWF_lookup_id hwf hlk
              have hlinkrel : chainRel g h0 := by
                show h0.parent_id = some g.id
                rw [hgid]
                exact hcur.symm
              have hchain' : List.Chain' chainRel (g :: h0 :: t) :=
                List.chain'_cons.mpr ⟨hlinkrel, hchain⟩
              obtain ⟨⟨pre, hpre⟩, hch, hhead⟩ :=
                ih g.parent_id g (h0 :: t) c hrun' rfl hchain'
              refine ⟨⟨pre ++ [g], ?_⟩, hch, hhead⟩
              rw [hpre]
              simp

/-- C8 (amended): whenever the parent walk of `get_chain` exits its loop
(it does so for every acyclic ancestor chain; a reachable ledger can contain
a parent cycle when a caller-supplied dangling `parent_id` collides with a
later freshly generated id, and then the walk never exits — see the
counterexample), the returned sequence is non-empty, ends with the record of
the queried id, is ordered root-first with every adjacent pair satisfying
`child.parent_id = parent.id`, and starts at a record with no parent or with
a parent id that is not in the store. -/
theorem get_chain_sound (s : List (String × Genesis)) (hwf : StoreWF s)
    (i : String) (gi : Genesis) (fuel : Nat) (c : List Genesis)
    (hi : lookupS s i = some gi) (hrun : get_chain s i fuel = some c) :
    c ≠ [] ∧ c.getLast? = some gi ∧ List.Chain' chainRel c ∧
      (∃ gh rest, c = gh :: rest ∧
        (gh.parent_id = none ∨ ∃ p, gh.parent_id = some p ∧ lookupS s p = none)) := by
  cases fuel with
  | zero =>
      exfalso
      simp [get_chain, chainLoop, hi] at hrun
  | succ f =>
      have hrun' : chainLoop s f gi.parent_id [gi] = some c := by
        simpa [get_chain, chainLoop, hi] using hrun
      obtain ⟨⟨pre, hpre⟩, hch, hhead⟩ :=
        chainLoop_sound s hwf f gi.parent_id gi [] c hrun' rfl (List.chain'_singleton gi)
      refine ⟨?_, ?_, hch, hhead⟩
      · rw [hpre]
        simp
      · rw [hpre, List.getLast?_concat]

/-- C8 (witness): the amended theorem applied to the two-record ledger whose
child `"c"` points at the root `"r"`. -/
theorem get_chain_sound_witness :
    [demoChainRoot, demoChainChild] ≠ [] ∧
    List.getLast? [demoChainRoot, demoChainChild] = some demoChainChild ∧
    List.Chain' chainRel [demoChainRoot, demoChainChild] ∧
    (∃ gh rest, [demoChainRoot, demoChainChild] = gh :: rest ∧
      (gh.parent_id = none ∨
        ∃ p, gh.parent_id = some p ∧ lookupS demoChainLedger.store p = none)) :=
  get_chain_sound demoChainLedger.store (by unfold StoreWF; decide) "c" demoChainChild 5
    [demoChainRoot, demoChainChild] (by decide) (by decide)

theorem cyclic_chainLoop_none :
    ∀ (fuel : Nat) (acc : List Genesis),
      chainLoop cyclicLedger.store fuel (some "a") acc = none ∧
      chainLoop cyclicLedger.store fuel (some "x") acc = none := by
  have ha : lookupS cyclicLedger.store "a" = some cyclicRecA := by decide
  have hx : lookupS cyclicLedger.store "x" = some cyclicRecX := by decide
  intro fuel
  induction fuel with
  | zero =>
      intro acc
      constructor
      · simp [chainLoop, ha]
      · simp [chainLoop, hx]
  | succ f ih =>
      intro acc
      constructor
      · have hstep := chainLoop_step cyclicLedger.store f "a" cyclicRecA acc ha
        have hpa : cyclicRecA.parent_id = some "x" := rfl
        rw [hstep, hpa]
        exact (ih _).2
      · have hstep := chainLoop_step cyclicLedger.store f "x" cyclicRecX acc hx
        have hpx : cyclicRecX.parent_id = some "a" := rfl
        rw [hstep, hpx]
        exact (ih _).1

/-- C8 (counterexample): a ledger state reachable by two `create` calls
contains the record `"a"` in its store, yet the `get_chain` walk from `"a"`
never exits its loop no matter how many iterations it is allowed, because
the two records' parent links form a cycle; so `get_chain` does not
terminate for every id present in a reachable store. -/
theorem get_chain_cycle_cex :
    Reachable cyclicLedger ∧ (lookupS cyclicLedger.store "a").isSome = true ∧
    ∀ fuel, get_chain cyclicLedger.store "a" fuel = none := by
  refine ⟨?_, by decide, fun fuel => (cyclic_chainLoop_none fuel []).1⟩
  exact Reachable.created "x" "t1" "u" "q1" .USER (some "a") false
    (Reachable.created "a" "t0" "u" "q0" .USER (some "x") false Reachable.nil rfl)
    (by decide)

/-- C4: the confirmation gate fires exactly when the lowered action text
contains one of the eight high-risk substrings or the record is AI-owned at
tier `USER` or above, and otherwise returns `False`. -/
theorem gate_requires_confirmation_iff (action : String) (g : Genesis) :
    requiresConfirmation action g = true ↔
      ((∃ kw ∈ HIGH_RISK_ACTIONS, containsSub (lowerStr action) kw = true) ∨
        (g.is_mine = true ∧ ResponsibilityTier.USER.value ≤ g.tier.value)) := by
  cases hk : HIGH_RISK_ACTIONS.any (fun kw => containsSub (lowerStr action) kw) with
  | true =>
      have hex : ∃ kw ∈ HIGH_RISK_ACTIONS, containsSub (lowerStr action) kw = true := by
        simpa [List.any_eq_true] using hk
      have hreq : requiresConfirmation action g = true := by
        simp [requiresConfirmation, hk]
      exact iff_of_true hreq (Or.inl hex)
  | false =>
      cases hm : (g.is_mine && decide (ResponsibilityTier.USER.value ≤ g.tier.value)) with
      | true =>
          have hreq : requiresConfirmation action g = true := by
            simp [requiresConfirmation, hk, hm]
          rw [Bool.and_eq_true] at hm
          exact iff_of_true hreq (Or.inr ⟨hm.1, of_decide_eq_true hm.2⟩)
      | false =>
          have hreq : requiresConfirmation action g = false := by
            simp [requiresConfirmation, hk, hm]
          refine iff_of_false (by simp [hreq]) ?_
          rintro (⟨kw, hmem, hsub⟩ | ⟨hmine, hle⟩)
          · have hany := List.any_eq_true.mpr ⟨kw, hmem, hsub⟩
            rw [hk] at hany
            cases hany
          · have hand : (g.is_mine &&
                decide (ResponsibilityTier.USER.value ≤ g.tier.value)) = true := by
              rw [hmine, decide_eq_true hle]
              rfl
            rw [hm] at hand
            cases hand

theorem checkAttribute_range (basis : String) (layer : AuditLayer) :
    checkAttribute basis layer = .PASS ∨ checkAttribute basis layer = .FLAG := by
  by_cases h : basis = "Inference" ∧ layer ≠ .L2
  · exact Or.inr (by simp [checkAttribute, h])
  · exact Or.inl (by simp [checkAttribute, h])

theorem checkShadow_fst_range (a : String) (ctx : List String) :
    (checkShadow a ctx).1 = .PASS ∨ (checkShadow a ctx).1 = .REJECT := by
  by_cases h1 : ctx = []
  · simp [checkShadow, h1]
  · by_cases h2 : actionWordSet a = []
    · simp [checkShadow, h1, h2]
    · by_cases h3 : overlapQ a ctx < 3/10
      · simp [checkShadow, h1, h2, h3]
      · simp [checkShadow, h1, h2, h3]

theorem checkBenevolence_fst_range (a : String) :
    (checkBenevolence a).1 = .PASS ∨ (checkBenevolence a).1 = .INTERCEPT := by
  by_cases h : 2 ≤ pleasingCount a ∧ honestCount a = 0
  · exact Or.inr (by simp [checkBenevolence, h])
  · exact Or.inl (by simp [checkBenevolence, h])

/-- C10: in every audit result the attribute check is `PASS` or `FLAG`, the
shadow check is `PASS` or `REJECT`, and the benevolence check is `PASS` or
`INTERCEPT`, so each non-pass verdict kind can come from exactly one
sub-check. -/
theorem subcheck_outcome_ranges (proposed : String) (ctx : List String)
    (basis : String) (layer : AuditLayer) :
    ((audit proposed ctx basis layer).attribute_check = .PASS ∨
      (audit proposed ctx basis layer).attribute_check = .FLAG) ∧
    ((audit proposed ctx basis layer).shadow_check = .PASS ∨
      (audit proposed ctx basis layer).shadow_check = .REJECT) ∧
    ((audit proposed ctx basis layer).benevolence_check = .PASS ∨
      (audit proposed ctx basis layer).benevolence_check = .INTERCEPT) :=
  ⟨checkAttribute_range basis layer, checkShadow_fst_range proposed ctx,
    checkBenevolence_fst_range proposed⟩

/-- C3: the final audit verdict is the highest-priority non-pass sub-check
outcome under `REJECT > INTERCEPT > FLAG > PASS`, the error log carries the
reason string of that outcome, and when all three sub-checks pass the final
verdict is `PASS` with no reason. -/
theorem audit_final_priority (proposed : String) (ctx : List String)
    (basis : String) (layer : AuditLayer) :
    resultRank (audit proposed ctx basis layer).final_result =
      max (resultRank (audit proposed ctx basis layer).shadow_check)
        (max (resultRank (audit proposed ctx basis layer).benevolence_check)
          (resultRank (audit proposed ctx basis layer).attribute_check)) ∧
    ((audit proposed ctx basis layer).final_result = .REJECT →
      (audit proposed ctx basis layer).error_log = some "無影子的輸出") ∧
    ((audit proposed ctx basis layer).final_result = .INTERCEPT →
      (audit proposed ctx basis layer).error_log = some "攔截無效敘事") ∧
    ((audit proposed ctx basis layer).final_result = .FLAG →
      (audit proposed ctx basis layer).error_log = some "跨層混用") ∧
    ((audit proposed ctx basis layer).final_result = .PASS →
      (audit proposed ctx basis layer).error_log = none) := by
  have hs := checkShadow_fst_range proposed ctx
  have hb := checkBenevolence_fst_range proposed
  have ha := checkAttribute_range basis layer
  have hsh : (audit proposed ctx basis layer).shadow_check = (checkShadow proposed ctx).1 := rfl
  have hbe : (audit proposed ctx basis layer).benevolence_check =
      (checkBenevolence proposed).1 := rfl
  have hat : (audit proposed ctx basis layer).attribute_check = checkAttribute basis layer := rfl
  have hfin : (audit proposed ctx basis layer).final_result =
      (finalizeLoop [((checkShadow proposed ctx).1, "無影子的輸出"),
        ((checkBenevolence proposed).1, "攔截無效敘事"),
        (checkAttribute basis layer, "跨層混用")]).1 := rfl
  have herr : (audit proposed ctx basis layer).error_log =
      (finalizeLoop [((checkShadow proposed ctx).1, "無影子的輸出"),
        ((checkBenevolence proposed).1, "攔截無效敘事"),
        (checkAttribute basis layer, "跨層混用")]).2 := rfl
  rw [hsh, hbe, hat, hfin, herr]
  rcases hs with hs | hs <;> rcases hb with hb | hb <;> rcases ha with ha | ha <;>
    rw [hs, hb, ha] <;> simp [finalizeLoop, resultRank]

/-- C5 (amended): the shadow check returns `(PASS, 0.5)` on an empty context
list, `(PASS, 0.0)` when the action text contains no words (the unamended
claim said "empty action text", which misses whitespace-only texts — see the
counterexample), and otherwise reports the word-overlap ratio as the context
score and rejects exactly when that ratio is below `0.3`. -/
theorem shadow_check_cascade (a : String) (ctx : List String) :
    (ctx = [] → checkShadow a ctx = (.PASS, 1/2)) ∧
    (ctx ≠ [] → actionWordSet a = [] → checkShadow a ctx = (.PASS, 0)) ∧
    (ctx ≠ [] → actionWordSet a ≠ [] →
      (checkShadow a ctx).2 = overlapQ a ctx ∧
      ((checkShadow a ctx).1 = .REJECT ↔ overlapQ a ctx < 3/10)) := by
  refine ⟨fun h1 => by simp [checkShadow, h1], fun h1 h2 => by simp [checkShadow, h1, h2],
    fun h1 h2 => ?_⟩
  by_cases h3 : overlapQ a ctx < 3/10
  · exact ⟨by simp [checkShadow, h1, h2, h3], by simp [checkShadow, h1, h2, h3]⟩
  · exact ⟨by simp [checkShadow, h1, h2, h3], by simp [checkShadow, h1, h2, h3]⟩

/-- C5 (counterexample): on the whitespace-only action text `"   "` with the
non-empty context `["x"]` the spec's cascade asserts a rejection (the
action text is non-empty and the overlap ratio, whose denominator is the
empty word set, is below `0.3`), but the code passes with score `0.0`
because it branches on the emptiness of the word set, not of the text. -/
theorem shadow_whitespace_cex : ¬ shadowSpecClaim "   " ["x"] := by
  unfold shadowSpecClaim
  rw [if_neg (by decide : ¬ (["x"] : List String) = []),
    if_neg (by decide : ¬ ("   " : String) = "")]
  intro h
  have hws : actionWordSet "   " = [] := by decide
  have hov : overlapQ "   " ["x"] = 0 := by
    rw [overlapQ, hws]
    simp
  have h1 := h.1.mpr (by rw [hov]; norm_num)
  have h2 : (checkShadow "   " ["x"]).1 = .PASS := by decide
  rw [h2] at h1
  cases h1

/-- C5 (witness): the amended cascade evaluated on one input per branch. -/
theorem shadow_check_cascade_witness :
    checkShadow "anything" [] = (.PASS, 1/2) ∧
    checkShadow " " ["ctx"] = (.PASS, 0) ∧
    ((checkShadow "alpha beta" ["alpha gamma"]).2 = overlapQ "alpha beta" ["alpha gamma"] ∧
      ((checkShadow "alpha beta" ["alpha gamma"]).1 = .REJECT ↔
        overlapQ "alpha beta" ["alpha gamma"] < 3/10)) :=
  ⟨(shadow_check_cascade "anything" []).1 rfl,
    (shadow_check_cascade " " ["ctx"]).2.1 (by decide) (by decide),
    (shadow_check_cascade "alpha beta" ["alpha gamma"]).2.2 (by decide) (by decide)⟩

/-- C6: the benevolence check's phrase score is `0.5` when no marker of
either kind matches and `honest / (honest + pleasing)` otherwise, and the
check intercepts exactly when at least two pleasing markers and no honest
marker match. -/
theorem benevolence_check_contract (a : String) :
    (pleasingCount a + honestCount a = 0 → (checkBenevolence a).2 = 1/2) ∧
    (pleasingCount a + honestCount a ≠ 0 →
      (checkBenevolence a).2 =
        (honestCount a : ℚ) / ((honestCount a + pleasingCount a : Nat) : ℚ)) ∧
    ((checkBenevolence a).1 = .INTERCEPT ↔ 2 ≤ pleasingCount a ∧ honestCount a = 0) := by
  refine ⟨?_, ?_, ?_⟩
  · intro h
    simp [checkBenevolence, h, apply_ite]
  · intro h
    have hsc : (checkBenevolence a).2 =
        (honestCount a : ℚ) / ((pleasingCount a + honestCount a : Nat) : ℚ) := by
      simp [checkBenevolence, h, apply_ite]
    rw [hsc, Nat.add_comm]
  · by_cases h : 2 ≤ pleasingCount a ∧ honestCount a = 0
    · simp [checkBenevolence, h]
    · simp [checkBenevolence, h]

/-- C6 (witness): the worked example from the specification — three pleasing
markers, no honest marker — is intercepted with phrase score `0`, and a
marker-free text gets the neutral score `0.5`. -/
theorem benevolence_check_contract_witness :
    2 ≤ pleasingCount "Absolutely! Great question! I'd be happy to help!" ∧
    honestCount "Absolutely! Great question! I'd be happy to help!" = 0 ∧
    (checkBenevolence "Absolutely! Great question! I'd be happy to help!").1 = .INTERCEPT ∧
    (checkBenevolence "Absolutely! Great question! I'd be happy to help!").2 = 0 ∧
    (checkBenevolence "plain text").2 = 1/2 := by
  refine ⟨by decide, by decide, ?_, ?_, ?_⟩
  · exact (benevolence_check_contract _).2.2.mpr ⟨by decide, by decide⟩
  · have h := (benevolence_check_contract
      "Absolutely! Great question! I'd be happy to help!").2.1 (by decide)
    have hhc : honestCount "Absolutely! Great question! I'd be happy to help!" = 0 := by
      decide
    rw [h, hhc]
    simp
  · exact (benevolence_check_contract "plain text").1 (by decide)

/-- C2: for any advisor outcome, the council verdict approves iff all three
personas approve, the consensus level is the approving-vote count over
three, and the uncertainty level is one minus the mean confidence. -/
theorem council_aggregation (advisor : Persona → AdvisorReply) (action : String) :
    ((deliberate advisor action).approved = true ↔
      ((advisor .PHILOSOPHER).approval = true ∧ (advisor .ENGINEER).approval = true ∧
        (advisor .GUARDIAN).approval = true)) ∧
    (deliberate advisor action).consensus_level =
      ((if (advisor .PHILOSOPHER).approval then (1 : ℚ) else 0) +
        (if (advisor .ENGINEER).approval then (1 : ℚ) else 0) +
        (if (advisor .GUARDIAN).approval then (1 : ℚ) else 0)) / 3 ∧
    (deliberate advisor action).uncertainty_level =
      1 - ((advisor .PHILOSOPHER).confidence + (advisor .ENGINEER).confidence +
        (advisor .GUARDIAN).confidence) / 3 := by
  refine ⟨?_, ?_, ?_⟩
  · cases hp : (advisor .PHILOSOPHER).approval <;>
      cases he : (advisor .ENGINEER).approval <;>
      cases hg : (advisor .GUARDIAN).approval <;>
      simp [deliberate, mkVote, hp, he, hg]
  · cases hp : (advisor .PHILOSOPHER).approval <;>
      cases he : (advisor .ENGINEER).approval <;>
      cases hg : (advisor .GUARDIAN).approval <;>
      simp [deliberate, mkVote, hp, he, hg] <;> norm_num
  · have hu : (deliberate advisor action).uncertainty_level =
        calcUncertainty [mkVote advisor .PHILOSOPHER, mkVote advisor .ENGINEER,
          mkVote advisor .GUARDIAN] := rfl
    rw [hu]
    simp [calcUncertainty, mkVote]
    ring

/-- C7: the council verdict requires confirmation iff the action text
contains a high-risk keyword, or the guardian persona disapproves, or the
guardian lists at least one concern. -/
theorem council_confirmation_iff (advisor : Persona → AdvisorReply) (action : String) :
    (deliberate advisor action).requires_confirmation = true ↔
      ((∃ kw ∈ councilKeywords, containsSub (lowerStr action) kw = true) ∨
        (advisor .GUARDIAN).approval = false ∨ (advisor .GUARDIAN).concerns ≠ []) := by
  cases hk : kwHit councilKeywords action with
  | true =>
      have hreq : (deliberate advisor action).requires_confirmation = true := by
        simp [deliberate, checkConfirmationRequired, hk]
      have hex : ∃ kw ∈ councilKeywords, containsSub (lowerStr action) kw = true := by
        simpa [kwHit, List.any_eq_true] using hk
      exact iff_of_true hreq (Or.inl hex)
  | false =>
      have hnex : ¬ ∃ kw ∈ councilKeywords, containsSub (lowerStr action) kw = true := by
        rintro ⟨kw, hmem, hsub⟩
        have hany : kwHit councilKeywords action = true := by
          simp [kwHit, List.any_eq_true]
          exact ⟨kw, hmem, hsub⟩
        rw [hk] at hany
        cases hany
      have hreq : (deliberate advisor action).requires_confirmation =
          (!(advisor .GUARDIAN).approval || !(advisor .GUARDIAN).concerns.isEmpty) := by
        simp [deliberate, checkConfirmationRequired, hk, mkVote, List.find?]
      rw [hreq]
      cases hga : (advisor .GUARDIAN).approval with
      | false =>
          exact iff_of_true (by simp) (Or.inr (Or.inl rfl))
      | true =>
          cases hgc : (advisor .GUARDIAN).concerns with
          | nil =>
              refine iff_of_false (by simp) ?_
              rintro (hex | hap | hco)
              · exact hnex hex
              · cases hap
              · exact hco rfl
          | cons c cs =>
              refine iff_of_true (by simp) (Or.inr (Or.inr (by simp)))

/-- C3 (witness): the priority theorem applied to the spec's shadowless
example (final verdict `REJECT` with its reason) and to an all-pass input
(final verdict `PASS` with no reason). -/
theorem audit_final_priority_witness :
    (audit "The quantum fluctuations in the temporal matrix"
      ["weather forecast", "daily news"] "Inference" AuditLayer.L2).error_log =
        some "無影子的輸出" ∧
    (audit "plain words" [] "Inference" AuditLayer.L2).error_log = none := by
  constructor
  · have hnum : ((actionWordSet "The quantum fluctuations in the temporal matrix").filter
        (fun w => decide (w ∈ contextWords ["weather forecast", "daily news"]))).length = 0 := by
      decide
    have hov : overlapQ "The quantum fluctuations in the temporal matrix"
        ["weather forecast", "daily news"] = 0 := by
      unfold overlapQ
      rw [hnum]
      simp
    have hsh : (checkShadow "The quantum fluctuations in the temporal matrix"
        ["weather forecast", "daily news"]).1 = .REJECT :=
      ((shadow_check_cascade "The quantum fluctuations in the temporal matrix"
        ["weather forecast", "daily news"]).2.2 (by decide) (by decide)).2.mpr
        (by rw [hov]; norm_num)
    have hbe : (checkBenevolence "The quantum fluctuations in the temporal matrix").1 =
        .PASS := by decide
    have hat : checkAttribute "Inference" AuditLayer.L2 = .PASS := by decide
    have hfin : (audit "The quantum fluctuations in the temporal matrix"
        ["weather forecast", "daily news"] "Inference" AuditLayer.L2).final_result =
        (finalizeLoop [((checkShadow "The quantum fluctuations in the temporal matrix"
            ["weather forecast", "daily news"]).1, "無影子的輸出"),
          ((checkBenevolence "The quantum fluctuations in the temporal matrix").1,
            "攔截無效敘事"),
          (checkAttribute "Inference" AuditLayer.L2, "跨層混用")]).1 := rfl
    have hrej : (audit "The quantum fluctuations in the temporal matrix"
        ["weather forecast", "daily news"] "Inference" AuditLayer.L2).final_result =
        .REJECT := by
      rw [hfin, hsh, hbe, hat]
      simp [finalizeLoop]
    exact (audit_final_priority "The quantum fluctuations in the temporal matrix"
      ["weather forecast", "daily news"] "Inference" AuditLayer.L2).2.1 hrej
  · have hsh : (checkShadow "plain words" []).1 = .PASS := by decide
    have hbe : (checkBenevolence "plain words").1 = .PASS := by decide
    have hat : checkAttribute "Inference" AuditLayer.L2 = .PASS := by decide
    have hfin : (audit "plain words" [] "Inference" AuditLayer.L2).final_result =
        (finalizeLoop [((checkShadow "plain words" []).1, "無影子的輸出"),
          ((checkBenevolence "plain words").1, "攔截無效敘事"),
          (checkAttribute "Inference" AuditLayer.L2, "跨層混用")]).1 := rfl
    have hpass : (audit "plain words" [] "Inference" AuditLayer.L2).final_result = .PASS := by
      rw [hfin, hsh, hbe, hat]
      simp [finalizeLoop]
    exact (audit_final_priority "plain words" [] "Inference" AuditLayer.L2).2.2.2.2 hpass
